import Mathlib

/-!
# SkyNotes — verification of the note-store logic

Shallow embedding of the note-taking client in `src/app/page.tsx`:
the `Note` record, the store operations (`createNote`, `updateNote`,
`deleteNote`, `duplicateNote`, selection), the derived view
(`filteredNotes`), and storage initialization (`getInitialNotes`).

Modelling conventions:
* ISO-8601 timestamps are plain strings, compared with the string order
  (the code compares them with `localeCompare`, which agrees with
  code-point order on ISO timestamps).
* `Math.random`-driven inputs (fresh ids, palette index) and the clock
  are passed as explicit parameters.
* The stable JavaScript `Array.prototype.sort` with the consistent
  comparator of `filteredNotes` is modelled by the stable
  `List.insertionSort` on the non-strict order `NoteLE` derived from
  that comparator (cmp a b ≤ 0); for a consistent comparator every
  stable sort produces the same output list.
* JSON values are modelled by the inductive `Json`; `JSON.parse` is a
  platform builtin, so it enters `getInitialNotes` as an abstract
  parameter `parse : String → Option Json` (`none` models the thrown
  `SyntaxError` that the code catches).
-/

namespace SkyNotes

/-- The `Note` interface of `src/app/page.tsx` (lines 5-13). -/
structure Note where
  id : String
  title : String
  content : String
  createdAt : String
  updatedAt : String
  pinned : Bool
  color : String
deriving DecidableEq, Repr

/-- The component state that the store operations touch: the `notes`
array and the `activeId` selection pointer. The transient search term
is handled separately since only `filteredNotes` reads it. -/
structure AppState where
  notes : List Note
  activeId : Option String
deriving DecidableEq, Repr

/-- The fixed accent palette (`palettes`, lines 17-22). -/
def palettes : List String :=
  ["from-sky-400/80 via-sky-500/50 to-blue-900/20",
   "from-purple-400/90 via-indigo-500/50 to-slate-900/20",
   "from-rose-400/80 via-pink-500/40 to-fuchsia-900/20",
   "from-emerald-400/80 via-teal-500/40 to-slate-900/20"]

/-- Lexicographic code-point order on character lists, non-strict:
models the string comparison performed by `localeCompare` on ISO
timestamps (for which the default locale agrees with code-point order). -/
def charsLe : List Char → List Char → Bool
  | [], _ => true
  | _ :: _, [] => false
  | c :: cs, d :: ds => if c = d then charsLe cs ds else decide (c < d)

/-- `a.localeCompare(b) ≤ 0`, modelled as code-point order. -/
def strLe (a b : String) : Bool :=
  charsLe a.data b.data

/-- JavaScript `String.prototype.toLowerCase`, modelled character-wise
(ASCII case mapping). -/
def strToLower (s : String) : String :=
  ⟨s.data.map Char.toLower⟩

/-- JavaScript `String.prototype.trim`: strip leading and trailing
whitespace. -/
def strTrim (s : String) : String :=
  ⟨((s.data.dropWhile Char.isWhitespace).reverse.dropWhile
      Char.isWhitespace).reverse⟩

/-- `needle` begins `haystack` (character lists). -/
def charsStartWith : List Char → List Char → Bool
  | _, [] => true
  | [], _ :: _ => false
  | c :: cs, d :: ds => c = d && charsStartWith cs ds

/-- `needle` occurs contiguously in `haystack` (character lists). -/
def charsContain : List Char → List Char → Bool
  | [], needle => needle.isEmpty
  | c :: cs, needle => charsStartWith (c :: cs) needle || charsContain cs needle

/-- JavaScript `String.prototype.includes`: substring containment. -/
def strIncludes (s pat : String) : Bool :=
  charsContain s.data pat.data

/-- The filter predicate of `filteredNotes` (line 84): the note's title
or content, lowercased, contains the (already lowercased) term. -/
def searchMatches (term : String) (note : Note) : Bool :=
  strIncludes (strToLower note.title) term ||
    strIncludes (strToLower note.content) term

/-- The sort comparator of `filteredNotes` (lines 78 and 86), read as a
non-strict order: `noteLeb a b` holds iff the comparator
`Number(b.pinned) - Number(a.pinned) || b.updatedAt.localeCompare(a.updatedAt)`
is `≤ 0` at `(a, b)`, i.e. the sort may place `a` at or before `b`. -/
def noteLeb (a b : Note) : Bool :=
  (a.pinned && !b.pinned) ||
    ((a.pinned == b.pinned) && strLe b.updatedAt a.updatedAt)

/-- Propositional form of `noteLeb`. -/
def NoteLE (a b : Note) : Prop := noteLeb a b = true

instance : DecidableRel NoteLE :=
  fun a b => inferInstanceAs (Decidable (noteLeb a b = true))

/-- `filteredNotes` (lines 76-87): when the trimmed search term is empty,
the whole store sorted; otherwise the store filtered by case-insensitive
substring match on title or content, then sorted. The term used for
matching is the raw search term lowercased (not trimmed), as in the code. -/
def filteredNotes (notes : List Note) (searchTerm : String) : List Note :=
  if strTrim searchTerm = "" then
    List.insertionSort NoteLE notes
  else
    let term := strToLower searchTerm
    List.insertionSort NoteLE (notes.filter (fun note => searchMatches term note))

/-- `createNote` (lines 89-102). The fresh id and the clock reading are
parameters; the palette draw `Math.floor(Math.random() * palettes.length)`
is a parameter ranging over valid palette indices. -/
def createNote (newId now : String) (colorIdx : Fin palettes.length)
    (s : AppState) : AppState :=
  let newNote : Note :=
    { id := newId, title := "Untitled", content := "", createdAt := now,
      updatedAt := now, pinned := false, color := palettes.get colorIdx }
  { notes := newNote :: s.notes, activeId := some newNote.id }

/-- The `payload` of `updateNote`:
`Partial<Pick<Note, "title" | "content" | "pinned" | "color">>`. -/
structure NotePatch where
  title : Option String := none
  content : Option String := none
  pinned : Option Bool := none
  color : Option String := none
deriving DecidableEq, Repr

/-- Spreading `{...note, ...payload, updatedAt: now}` (lines 108-112). -/
def applyPatch (note : Note) (p : NotePatch) (now : String) : Note :=
  { note with
    title := p.title.getD note.title,
    content := p.content.getD note.content,
    pinned := p.pinned.getD note.pinned,
    color := p.color.getD note.color,
    updatedAt := now }

/-- `updateNote` (lines 104-116). -/
def updateNote (id : String) (p : NotePatch) (now : String)
    (s : AppState) : AppState :=
  { s with
    notes := s.notes.map (fun note =>
      if note.id = id then applyPatch note p now else note) }

/-- `deleteNote` (lines 118-126): remove every note with the id; when the
deleted id was selected, select the first remaining note in store order,
or none if the store became empty. -/
def deleteNote (id : String) (s : AppState) : AppState :=
  let filtered := s.notes.filter (fun note => note.id != id)
  { notes := filtered,
    activeId :=
      if s.activeId = some id then filtered.head?.map Note.id
      else s.activeId }

/-- `duplicateNote` (lines 128-141). The fresh id and clock are parameters. -/
def duplicateNote (id newId now : String) (s : AppState) : AppState :=
  match s.notes.find? (fun note => note.id == id) with
  | none => s
  | some target =>
    let copy : Note :=
      { target with
        id := newId, title := target.title ++ " (Copy)",
        createdAt := now, updatedAt := now }
    { notes := copy :: s.notes, activeId := some copy.id }

/-- `setActiveId(note.id)` from the note-list click handler (line 190). -/
def selectNote (id : String) (s : AppState) : AppState :=
  { s with activeId := some id }

/-- The ids stored in the state, in store order. -/
def noteIds (s : AppState) : List String :=
  s.notes.map Note.id

/-- A sequence of `createNote` calls, each seed giving the fresh id, the
clock reading and the palette index of one call. -/
def createMany (seeds : List (String × String × Fin palettes.length))
    (s : AppState) : AppState :=
  seeds.foldl (fun st seed => createNote seed.1 seed.2.1 seed.2.2 st) s

/-- JSON values, for the persistence layer. -/
inductive Json where
  | null : Json
  | bool : Bool → Json
  | num : Int → Json
  | str : String → Json
  | arr : List Json → Json
  | obj : List (String × Json) → Json
deriving Repr

/-- `getInitialNotes` (lines 31-45). `hasWindow` models
`typeof window !== "undefined"`; `raw` is the value stored under the
`skynotes` key (`none` = absent); `parse` models the platform builtin
`JSON.parse`, with `none` standing for the thrown `SyntaxError`, which
the `try`/`catch` turns into `[]`. The JS guard `if (!raw)` is true both
for `null` and for the empty string. The cast `as Note[]` performs no
validation, so the result is the raw parsed array. -/
def getInitialNotes (parse : String → Option Json) (hasWindow : Bool)
    (raw : Option String) : List Json :=
  if !hasWindow then []
  else
    match raw with
    | none => []
    | some s =>
      if s = "" then []
      else
        match parse s with
        | none => []
        | some (Json.arr xs) => xs
        | some _ => []

/-- First binding of a key in a JSON object's field list. -/
def lookupField : List (String × Json) → String → Option Json
  | [], _ => none
  | (k, v) :: rest, key => if k = key then some v else lookupField rest key

/-- Property access on a parsed JSON value. -/
def Json.getField : Json → String → Option Json
  | Json.obj fields, key => lookupField fields key
  | _, _ => none

/-- Modelled from the spec: `JSON.stringify` is a platform builtin absent
from `src/`; per §6 the persisted layout is "a JSON array of Note
records, shape exactly as in §3". A `Note` serializes to an object with
its seven fields in declaration order (JS object-key insertion order). -/
def Note.toJson (n : Note) : Json :=
  Json.obj
    [("id", Json.str n.id), ("title", Json.str n.title),
     ("content", Json.str n.content), ("createdAt", Json.str n.createdAt),
     ("updatedAt", Json.str n.updatedAt), ("pinned", Json.bool n.pinned),
     ("color", Json.str n.color)]

/-- Modelled from the spec: serialization of the whole store (`line 71`,
`JSON.stringify(notes)`) at the JSON-value level. -/
def notesToJson (ns : List Note) : Json :=
  Json.arr (ns.map Note.toJson)

/-- A string field read back from a parsed JSON object. -/
def Json.getStr (j : Json) (key : String) : Option String :=
  match j.getField key with
  | some (Json.str s) => some s
  | _ => none

/-- A boolean field read back from a parsed JSON object. -/
def Json.getBool (j : Json) (key : String) : Option Bool :=
  match j.getField key with
  | some (Json.bool b) => some b
  | _ => none

/-- Modelled from the spec: reading one Note record back from its parsed
JSON object (field-for-field, §8 round-trip property). -/
def Note.fromJson (j : Json) : Option Note := do
  let id ← j.getStr "id"
  let title ← j.getStr "title"
  let content ← j.getStr "content"
  let createdAt ← j.getStr "createdAt"
  let updatedAt ← j.getStr "updatedAt"
  let pinned ← j.getBool "pinned"
  let color ← j.getStr "color"
  some { id := id, title := title, content := content,
         createdAt := createdAt, updatedAt := updatedAt,
         pinned := pinned, color := color }

/-- Reading a list of Note records back from parsed JSON array elements. -/
def decodeNotes : List Json → Option (List Note)
  | [] => some []
  | j :: js =>
    match Note.fromJson j, decodeNotes js with
    | some n, some ns => some (n :: ns)
    | _, _ => none

/-- Modelled from the spec: deserializing a whole persisted store. -/
def notesFromJson : Json → Option (List Note)
  | Json.arr xs => decodeNotes xs
  | _ => none

/-! ## Order lemmas for the comparator -/

theorem charsLe_total : ∀ l₁ l₂ : List Char,
    charsLe l₁ l₂ = true ∨ charsLe l₂ l₁ = true
  | [], _ => by left; rfl
  | _ :: _, [] => by right; rfl
  | c :: cs, d :: ds => by
    by_cases hcd : c = d
    · subst hcd
      simpa [charsLe] using charsLe_total cs ds
    · rcases lt_trichotomy c d with h | h | h
      · left; simp [charsLe, hcd, h]
      · exact absurd h hcd
      · right; simp [charsLe, Ne.symm hcd, h]

theorem charsLe_trans : ∀ l₁ l₂ l₃ : List Char,
    charsLe l₁ l₂ = true → charsLe l₂ l₃ = true → charsLe l₁ l₃ = true
  | [], _, _, _, _ => rfl
  | a :: _, [], _, h, _ => by simp [charsLe] at h
  | _ :: _, _ :: _, [], _, h => by simp [charsLe] at h
  | a :: as, b :: bs, c :: cs, h₁, h₂ => by
    by_cases hab : a = b <;> by_cases hbc : b = c
    · subst hab; subst hbc
      simp only [charsLe, if_pos rfl] at h₁ h₂ ⊢
      exact charsLe_trans as bs cs h₁ h₂
    · subst hab
      simp [charsLe, hbc] at h₂ ⊢
      simpa [hbc] using h₂
    · subst hbc
      simp [charsLe, hab] at h₁ ⊢
      simpa [hab] using h₁
    · simp [charsLe, hab] at h₁
      simp [charsLe, hbc] at h₂
      have hac : a < c := lt_trans h₁ h₂
      simp [charsLe, ne_of_lt hac, hac]

theorem noteLeb_total (a b : Note) : noteLeb a b = true ∨ noteLeb b a = true := by
  unfold noteLeb
  cases ha : a.pinned <;> cases hb : b.pinned <;> simp [strLe]
  · exact charsLe_total b.updatedAt.data a.updatedAt.data
  · exact charsLe_total b.updatedAt.data a.updatedAt.data

theorem noteLeb_trans (a b c : Note) (hab : noteLeb a b = true)
    (hbc : noteLeb b c = true) : noteLeb a c = true := by
  unfold noteLeb at hab hbc ⊢
  cases ha : a.pinned <;> cases hb : b.pinned <;> cases hc : c.pinned <;>
    simp_all [strLe]
  · exact charsLe_trans _ _ _ hbc hab
  · exact charsLe_trans _ _ _ hbc hab

instance : IsTotal Note NoteLE := ⟨noteLeb_total⟩

instance : IsTrans Note NoteLE := ⟨noteLeb_trans⟩

/-- The comparator order implies the claim-level display order: pinned
notes come first, and within equal pin status `updatedAt` descends. -/
theorem noteLeb_display {a b : Note} (h : noteLeb a b = true) :
    (b.pinned = true → a.pinned = true) ∧
      (a.pinned = b.pinned → strLe b.updatedAt a.updatedAt = true) := by
  unfold noteLeb at h
  cases ha : a.pinned <;> cases hb : b.pinned <;> simp_all

/-! ## Claims -/

/-- Claim C1: the view derivation is a pure function of the note list and the
search term. When a search term is given (its trimmed form is nonempty),
`filteredNotes` returns exactly the notes whose title or content contains
the term as a case-insensitive substring — so a note whose only match is
in its content is still returned. The result is sorted pinned-first and
then by `updatedAt` descending, and for every note list every pinned note
appears before every unpinned note regardless of timestamps. -/
theorem claim_C1 (notes : List Note) (searchTerm : String) :
    ((strTrim searchTerm ≠ "") →
      ∀ n : Note, n ∈ filteredNotes notes searchTerm ↔
        (n ∈ notes ∧ searchMatches (strToLower searchTerm) n = true)) ∧
    List.Pairwise (fun a b : Note =>
        (b.pinned = true → a.pinned = true) ∧
        (a.pinned = b.pinned → strLe b.updatedAt a.updatedAt = true))
      (filteredNotes notes searchTerm) ∧
    List.Pairwise (fun a b : Note => b.pinned = true → a.pinned = true)
      (filteredNotes notes searchTerm) := by
  refine ⟨?_, ?_, ?_⟩
  · intro hterm n
    unfold filteredNotes
    rw [if_neg hterm]
    simp [List.mem_insertionSort, List.mem_filter]
  · unfold filteredNotes
    split <;>
      exact List.Pairwise.imp (fun h => noteLeb_display h)
        (List.sorted_insertionSort NoteLE _)
  · unfold filteredNotes
    split <;>
      exact List.Pairwise.imp (fun h => (noteLeb_display h).1)
        (List.sorted_insertionSort NoteLE _)

/-- Witness for C1 at a concrete input: the search term `"FOO"` matches a
note only through its content, and that note is surfaced while a
non-matching note is not. -/
theorem claim_C1_witness :
    (⟨"a", "T", "has foo inside", "1", "1", false, "c"⟩ : Note) ∈
      filteredNotes
        [⟨"a", "T", "has foo inside", "1", "1", false, "c"⟩,
         ⟨"b", "Other", "nothing", "1", "2", false, "c"⟩] "FOO" ∧
    (⟨"b", "Other", "nothing", "1", "2", false, "c"⟩ : Note) ∉
      filteredNotes
        [⟨"a", "T", "has foo inside", "1", "1", false, "c"⟩,
         ⟨"b", "Other", "nothing", "1", "2", false, "c"⟩] "FOO" := by
  constructor
  · exact ((claim_C1 _ "FOO").1 (by decide) _).mpr ⟨by simp, by decide⟩
  · intro hmem
    exact absurd (((claim_C1 _ "FOO").1 (by decide) _).mp hmem).2 (by decide)

/-- Claim C2, counterexample: the claim says the created note's title is
empty, but `createNote` titles the new note `"Untitled"`. At a concrete
input the created note's title is `"Untitled"`, which is not `""`. -/
theorem claim_C2_counterexample :
    (createNote "n" "1" ⟨0, by decide⟩ ⟨[], none⟩).notes.map Note.title
        = ["Untitled"] ∧
    (createNote "n" "1" ⟨0, by decide⟩ ⟨[], none⟩).notes.map Note.title
        ≠ [""] := by
  constructor <;> decide

/-- Claim C2 (amended): `create()` inserts a new Note whose title is
`"Untitled"` and whose content is empty, with `createdAt = updatedAt =
now`, `pinned = false`, color drawn from the fixed palette; the new note
is placed first in store order, becomes the selected note, and all
pre-existing notes are unchanged. -/
theorem claim_C2_amended (id now : String) (k : Fin palettes.length)
    (s : AppState) :
    (createNote id now k s).notes =
      (⟨id, "Untitled", "", now, now, false, palettes.get k⟩ : Note)
        :: s.notes ∧
    (createNote id now k s).activeId = some id ∧
    palettes.get k ∈ palettes :=
  ⟨rfl, rfl, palettes.get_mem _ _⟩

/-- Claim C3: `update(id, payload)` merges exactly the given fields into
every position holding the note with that id and stamps `updatedAt :=
now` there, leaving `id` and `createdAt` of that note, and every note at
a position with a different id, unchanged; when no note has that id the
whole store is untouched, and the selection never changes. -/
theorem claim_C3 (id : String) (p : NotePatch) (now : String) (s : AppState) :
    (updateNote id p now s).notes.length = s.notes.length ∧
    (∀ (i : Nat) (hi : i < s.notes.length)
        (hi' : i < (updateNote id p now s).notes.length),
      ((s.notes.get ⟨i, hi⟩).id = id →
        ((updateNote id p now s).notes.get ⟨i, hi'⟩).id
            = (s.notes.get ⟨i, hi⟩).id ∧
        ((updateNote id p now s).notes.get ⟨i, hi'⟩).createdAt
            = (s.notes.get ⟨i, hi⟩).createdAt ∧
        ((updateNote id p now s).notes.get ⟨i, hi'⟩).updatedAt = now ∧
        ((updateNote id p now s).notes.get ⟨i, hi'⟩).title
            = p.title.getD (s.notes.get ⟨i, hi⟩).title ∧
        ((updateNote id p now s).notes.get ⟨i, hi'⟩).content
            = p.content.getD (s.notes.get ⟨i, hi⟩).content ∧
        ((updateNote id p now s).notes.get ⟨i, hi'⟩).pinned
            = p.pinned.getD (s.notes.get ⟨i, hi⟩).pinned ∧
        ((updateNote id p now s).notes.get ⟨i, hi'⟩).color
            = p.color.getD (s.notes.get ⟨i, hi⟩).color) ∧
      ((s.notes.get ⟨i, hi⟩).id ≠ id →
        (updateNote id p now s).notes.get ⟨i, hi'⟩ = s.notes.get ⟨i, hi⟩)) ∧
    ((∀ n ∈ s.notes, n.id ≠ id) → updateNote id p now s = s) ∧
    (updateNote id p now s).activeId = s.activeId := by
  refine ⟨by simp [updateNote], ?_, ?_, rfl⟩
  · intro i hi hi'
    have hget : (updateNote id p now s).notes.get ⟨i, hi'⟩ =
        (if (s.notes.get ⟨i, hi⟩).id = id
         then applyPatch (s.notes.get ⟨i, hi⟩) p now
         else s.notes.get ⟨i, hi⟩) := by
      simp [updateNote]
    constructor
    · intro hid
      rw [hget, if_pos hid]
      simp [applyPatch]
    · intro hid
      rw [hget, if_neg hid]
  · intro hall
    have hmap : s.notes.map (fun note =>
        if note.id = id then applyPatch note p now else note) = s.notes := by
      conv_rhs => rw [← List.map_id s.notes]
      exact List.map_congr_left fun n hn => by rw [if_neg (hall n hn)]; rfl
    cases s with
    | mk notes active => simpa [updateNote] using hmap

/-- Witness for C3 at a concrete input: patching the title of note
`"a"` changes exactly that field and its `updatedAt`, leaves note `"b"`
untouched, and updating an absent id is a no-op. -/
theorem claim_C3_witness :
    ((updateNote "a" ⟨some "T", none, none, none⟩ "9"
        ⟨[⟨"a", "t1", "c1", "0", "1", false, "col"⟩,
          ⟨"b", "t2", "c2", "0", "2", true, "col"⟩], some "a"⟩).notes.get
        ⟨0, by decide⟩).title = "T" ∧
    ((updateNote "a" ⟨some "T", none, none, none⟩ "9"
        ⟨[⟨"a", "t1", "c1", "0", "1", false, "col"⟩,
          ⟨"b", "t2", "c2", "0", "2", true, "col"⟩], some "a"⟩).notes.get
        ⟨0, by decide⟩).updatedAt = "9" ∧
    ((updateNote "a" ⟨some "T", none, none, none⟩ "9"
        ⟨[⟨"a", "t1", "c1", "0", "1", false, "col"⟩,
          ⟨"b", "t2", "c2", "0", "2", true, "col"⟩], some "a"⟩).notes.get
        ⟨0, by decide⟩).createdAt = "0" ∧
    ((updateNote "a" ⟨some "T", none, none, none⟩ "9"
        ⟨[⟨"a", "t1", "c1", "0", "1", false, "col"⟩,
          ⟨"b", "t2", "c2", "0", "2", true, "col"⟩], some "a"⟩).notes.get
        ⟨1, by decide⟩) = ⟨"b", "t2", "c2", "0", "2", true, "col"⟩ ∧
    updateNote "zz" ⟨some "T", none, none, none⟩ "9"
        ⟨[⟨"a", "t1", "c1", "0", "1", false, "col"⟩], some "a"⟩
      = ⟨[⟨"a", "t1", "c1", "0", "1", false, "col"⟩], some "a"⟩ := by
  refine ⟨?_, ?_, ?_, ?_, ?_⟩
  · exact (((claim_C3 "a" ⟨some "T", none, none, none⟩ "9" _).2.1 0
      (by decide) (by decide)).1 (by decide)).2.2.2.1
  · exact (((claim_C3 "a" ⟨some "T", none, none, none⟩ "9" _).2.1 0
      (by decide) (by decide)).1 (by decide)).2.2.1
  · exact (((claim_C3 "a" ⟨some "T", none, none, none⟩ "9" _).2.1 0
      (by decide) (by decide)).1 (by decide)).2.1
  · exact ((claim_C3 "a" ⟨some "T", none, none, none⟩ "9" _).2.1 1
      (by decide) (by decide)).2 (by decide)
  · exact (claim_C3 "zz" ⟨some "T", none, none, none⟩ "9" _).2.2.1 (by decide)

/-- Claim C4, counterexample: the claim says that after deleting the
selected note the new selection is the first remaining note in display
order (pinned-first, then `updatedAt` descending); the code takes the
first remaining note in store order. Concretely: store `[x, a, b]` with
`x` selected, `a` unpinned and `b` pinned — deleting `x` selects `a`,
while the first remaining note in display order is the pinned `b`. -/
theorem claim_C4_counterexample :
    (deleteNote "x" ⟨[⟨"x", "", "", "0", "3", false, "c"⟩,
                      ⟨"a", "", "", "0", "2", false, "c"⟩,
                      ⟨"b", "", "", "0", "1", true, "c"⟩], some "x"⟩).activeId
        = some "a" ∧
    ((filteredNotes
        (deleteNote "x" ⟨[⟨"x", "", "", "0", "3", false, "c"⟩,
                          ⟨"a", "", "", "0", "2", false, "c"⟩,
                          ⟨"b", "", "", "0", "1", true, "c"⟩],
                         some "x"⟩).notes "").head?).map Note.id
        = some "b" ∧
    some "a" ≠ (some "b" : Option String) := by
  refine ⟨by decide, by decide, by decide⟩

/-- Claim C4 (amended): when `delete(id)` removes the currently selected
note, the new selection is the first remaining note in STORE order (not
display order); if no notes remain, no note is selected. -/
theorem claim_C4_amended (s : AppState) (id : String)
    (h : s.activeId = some id) :
    (deleteNote id s).notes = s.notes.filter (fun n => n.id != id) ∧
    (deleteNote id s).activeId
        = (s.notes.filter (fun n => n.id != id)).head?.map Note.id ∧
    (s.notes.filter (fun n => n.id != id) = [] →
        (deleteNote id s).activeId = none) := by
  refine ⟨rfl, by simp [deleteNote, h], ?_⟩
  intro hempty
  simp [deleteNote, h, hempty]

/-- Witness for C4 (amended): deleting the selected head of a two-note
store selects the remaining note, and deleting the only note clears the
selection. -/
theorem claim_C4_witness :
    (deleteNote "x" ⟨[⟨"x", "", "", "0", "3", false, "c"⟩,
                      ⟨"a", "", "", "0", "2", false, "c"⟩], some "x"⟩).activeId
        = some "a" ∧
    (deleteNote "x" ⟨[⟨"x", "", "", "0", "3", false, "c"⟩],
                     some "x"⟩).activeId = none := by
  constructor
  · exact ((claim_C4_amended _ "x" rfl).2.1).trans (by decide)
  · exact (claim_C4_amended _ "x" rfl).2.2 (by decide)

/-- Claim C5: `duplicate(id)` on a store whose first note with the given
id is `target` prepends a copy with the fresh id, both timestamps set to
now, title `target.title ++ " (Copy)"`, and the original's content, pin
flag and color; the copy becomes selected and the pre-existing notes
(the original included) are unchanged. When no note has the id, the
store and selection are unchanged. -/
theorem claim_C5 (id newId now : String) (s : AppState) :
    (∀ target : Note,
      s.notes.find? (fun note => note.id == id) = some target →
        (duplicateNote id newId now s).notes =
          (⟨newId, target.title ++ " (Copy)", target.content, now, now,
            target.pinned, target.color⟩ : Note) :: s.notes ∧
        (duplicateNote id newId now s).activeId = some newId) ∧
    ((∀ n ∈ s.notes, n.id ≠ id) → duplicateNote id newId now s = s) := by
  constructor
  · intro target htarget
    unfold duplicateNote
    rw [htarget]
    exact ⟨rfl, rfl⟩
  · intro hall
    have hnone : s.notes.find? (fun note => note.id == id) = none := by
      rw [List.find?_eq_none]
      intro n hn
      simpa using hall n hn
    unfold duplicateNote
    rw [hnone]

/-- Witness for C5 at a concrete input: duplicating the only note
prepends the suffix-titled copy with fresh timestamps, and duplicating
an absent id changes nothing. -/
theorem claim_C5_witness :
    (duplicateNote "a" "n" "9"
        ⟨[⟨"a", "t", "c", "0", "1", true, "col"⟩], some "a"⟩).notes =
      [⟨"n", "t (Copy)", "c", "9", "9", true, "col"⟩,
       ⟨"a", "t", "c", "0", "1", true, "col"⟩] ∧
    duplicateNote "zz" "n" "9"
        ⟨[⟨"a", "t", "c", "0", "1", true, "col"⟩], some "a"⟩ =
      ⟨[⟨"a", "t", "c", "0", "1", true, "col"⟩], some "a"⟩ := by
  constructor
  · exact (((claim_C5 "a" "n" "9" _).1
      ⟨"a", "t", "c", "0", "1", true, "col"⟩ (by decide)).1).trans (by decide)
  · exact (claim_C5 "zz" "n" "9" _).2 (by decide)

/-- Every character list compares `≤` to itself. -/
theorem charsLe_refl : ∀ l : List Char, charsLe l l = true
  | [] => rfl
  | _ :: cs => by simp [charsLe, charsLe_refl cs]

/-- Claim C6: after `update(id, payload)`, each note's `updatedAt` is ≥
its previous value, under the hypothesis that the clock's timestamp
string `now` compares ≥ the note's stored `updatedAt`. -/
theorem claim_C6 (id : String) (p : NotePatch) (now : String) (s : AppState)
    (i : Nat) (hi : i < s.notes.length)
    (hi' : i < (updateNote id p now s).notes.length)
    (hclock : strLe (s.notes.get ⟨i, hi⟩).updatedAt now = true) :
    strLe (s.notes.get ⟨i, hi⟩).updatedAt
      ((updateNote id p now s).notes.get ⟨i, hi'⟩).updatedAt = true := by
  have hget : (updateNote id p now s).notes.get ⟨i, hi'⟩ =
      (if (s.notes.get ⟨i, hi⟩).id = id
       then applyPatch (s.notes.get ⟨i, hi⟩) p now
       else s.notes.get ⟨i, hi⟩) := by
    simp [updateNote]
  rw [hget]
  split
  · simpa [applyPatch] using hclock
  · exact charsLe_refl _

/-- Witness for C6 at a concrete input: the stored `updatedAt` is `"1"`,
the clock reads `"2"`, and after the update the note's `updatedAt`
compares ≥ `"1"`. -/
theorem claim_C6_witness :
    strLe "1"
      ((updateNote "a" ⟨none, none, some true, none⟩ "2"
          ⟨[⟨"a", "t", "c", "0", "1", false, "col"⟩], some "a"⟩).notes.get
        ⟨0, by decide⟩).updatedAt = true := by
  exact claim_C6 "a" ⟨none, none, some true, none⟩ "2"
    ⟨[⟨"a", "t", "c", "0", "1", false, "col"⟩], some "a"⟩ 0
    (by decide) (by decide) (by decide)

/-- `updateNote` never changes the stored ids. -/
theorem noteIds_updateNote (id : String) (p : NotePatch) (now : String)
    (s : AppState) : noteIds (updateNote id p now s) = noteIds s := by
  simp only [noteIds, updateNote, List.map_map]
  apply List.map_congr_left
  intro n _
  by_cases h : n.id = id <;> simp [Function.comp, h, applyPatch]

/-- The ids after a run of `createNote` calls: the seeds' ids reversed
(each call prepends), in front of the original ids. -/
theorem noteIds_createMany :
    ∀ (seeds : List (String × String × Fin palettes.length)) (s : AppState),
      noteIds (createMany seeds s)
        = (seeds.map (fun q => q.1)).reverse ++ noteIds s
  | [], s => by simp [createMany, noteIds]
  | q :: qs, s => by
    have hstep : createMany (q :: qs) s
        = createMany qs (createNote q.1 q.2.1 q.2.2 s) := rfl
    rw [hstep, noteIds_createMany qs (createNote q.1 q.2.1 q.2.2 s)]
    simp [noteIds, createNote, List.append_assoc]

/-- Claim C7: the store never holds two notes with the same id. Under
the hypothesis that each id handed to `createNote`/`duplicateNote` is
not already present, every operation preserves pairwise-distinct ids,
and creating N notes from the empty store (with pairwise-distinct fresh
ids) yields N entries with N distinct ids. -/
theorem claim_C7 (s : AppState) (hs : (noteIds s).Nodup) :
    (∀ (id now : String) (k : Fin palettes.length), id ∉ noteIds s →
        (noteIds (createNote id now k s)).Nodup) ∧
    (∀ (id : String) (p : NotePatch) (now : String),
        (noteIds (updateNote id p now s)).Nodup) ∧
    (∀ id newId now : String, newId ∉ noteIds s →
        (noteIds (duplicateNote id newId now s)).Nodup) ∧
    (∀ id : String, (noteIds (deleteNote id s)).Nodup) ∧
    (∀ id : String, (noteIds (selectNote id s)).Nodup) ∧
    (∀ seeds : List (String × String × Fin palettes.length),
        (seeds.map (fun q => q.1)).Nodup →
        (createMany seeds ⟨[], none⟩).notes.length = seeds.length ∧
        (noteIds (createMany seeds ⟨[], none⟩)).Nodup) := by
  refine ⟨?_, ?_, ?_, ?_, ?_, ?_⟩
  · intro id now k hid
    exact List.nodup_cons.mpr ⟨hid, hs⟩
  · intro id p now
    rw [noteIds_updateNote]
    exact hs
  · intro id newId now hnew
    unfold duplicateNote
    cases hfind : s.notes.find? (fun note => note.id == id) with
    | none => exact hs
    | some target => exact List.nodup_cons.mpr ⟨hnew, hs⟩
  · intro id
    exact ((List.filter_sublist s.notes).map Note.id).nodup hs
  · intro id
    exact hs
  · intro seeds hseeds
    have hids := noteIds_createMany seeds ⟨[], none⟩
    constructor
    · have hlen : (noteIds (createMany seeds ⟨[], none⟩)).length
          = seeds.length := by
        rw [hids]; simp [noteIds]
      simpa [noteIds] using hlen
    · rw [hids]
      simpa [noteIds] using List.nodup_reverse.mpr hseeds

/-- Witness for C7 at concrete inputs: starting from a two-note store
with distinct ids, each operation keeps the ids distinct, and creating
two notes from the empty store yields two entries with distinct ids. -/
theorem claim_C7_witness :
    (noteIds (createNote "c" "1" ⟨0, by decide⟩
        ⟨[⟨"a", "", "", "0", "1", false, "p"⟩,
          ⟨"b", "", "", "0", "2", true, "p"⟩], some "a"⟩)).Nodup ∧
    (noteIds (updateNote "a" ⟨some "T", none, none, none⟩ "9"
        ⟨[⟨"a", "", "", "0", "1", false, "p"⟩,
          ⟨"b", "", "", "0", "2", true, "p"⟩], some "a"⟩)).Nodup ∧
    (noteIds (duplicateNote "a" "c" "9"
        ⟨[⟨"a", "", "", "0", "1", false, "p"⟩,
          ⟨"b", "", "", "0", "2", true, "p"⟩], some "a"⟩)).Nodup ∧
    (noteIds (deleteNote "a"
        ⟨[⟨"a", "", "", "0", "1", false, "p"⟩,
          ⟨"b", "", "", "0", "2", true, "p"⟩], some "a"⟩)).Nodup ∧
    (noteIds (selectNote "b"
        ⟨[⟨"a", "", "", "0", "1", false, "p"⟩,
          ⟨"b", "", "", "0", "2", true, "p"⟩], some "a"⟩)).Nodup ∧
    (createMany [("c", "1", ⟨0, by decide⟩), ("d", "2", ⟨1, by decide⟩)]
        ⟨[], none⟩).notes.length = 2 ∧
    (noteIds (createMany
        [("c", "1", ⟨0, by decide⟩), ("d", "2", ⟨1, by decide⟩)]
        ⟨[], none⟩)).Nodup := by
  refine ⟨?_, ?_, ?_, ?_, ?_, ?_, ?_⟩
  · exact (claim_C7 _ (by decide)).1 "c" "1" _ (by decide)
  · exact (claim_C7 _ (by decide)).2.1 "a" _ "9"
  · exact (claim_C7 _ (by decide)).2.2.1 "a" "c" "9" (by decide)
  · exact (claim_C7 _ (by decide)).2.2.2.1 "a"
  · exact (claim_C7 _ (by decide)).2.2.2.2.1 "b"
  · exact ((claim_C7 ⟨[], none⟩ (by decide)).2.2.2.2.2 _ (by decide)).1
  · exact ((claim_C7 ⟨[], none⟩ (by decide)).2.2.2.2.2 _ (by decide)).2

/-- Claim C8: initialization from storage yields the empty list whenever
the persisted value is absent, is the empty string, fails to parse, or
parses to a non-array; otherwise (in the browser, with a nonempty raw
value parsing to an array) it yields the parsed array. Being a total
function, it succeeds in every case and surfaces no error. -/
theorem claim_C8 (parse : String → Option Json) (hasWindow : Bool) :
    getInitialNotes parse hasWindow none = [] ∧
    getInitialNotes parse hasWindow (some "") = [] ∧
    (∀ s : String, parse s = none →
        getInitialNotes parse hasWindow (some s) = []) ∧
    (∀ (s : String) (j : Json), parse s = some j →
        (∀ xs : List Json, j ≠ Json.arr xs) →
        getInitialNotes parse hasWindow (some s) = []) ∧
    (∀ (s : String) (xs : List Json), hasWindow = true → s ≠ "" →
        parse s = some (Json.arr xs) →
        getInitialNotes parse hasWindow (some s) = xs) := by
  refine ⟨?_, ?_, ?_, ?_, ?_⟩
  · cases hasWindow <;> rfl
  · cases hasWindow <;> rfl
  · intro s hparse
    cases hasWindow with
    | false => rfl
    | true =>
      unfold getInitialNotes
      by_cases hempty : s = "" <;> simp [hempty, hparse]
  · intro s j hparse hnotarr
    cases hasWindow with
    | false => rfl
    | true =>
      cases j with
      | arr xs => exact absurd rfl (hnotarr xs)
      | null =>
        unfold getInitialNotes
        by_cases hempty : s = "" <;> simp [hempty, hparse]
      | bool b =>
        unfold getInitialNotes
        by_cases hempty : s = "" <;> simp [hempty, hparse]
      | num n =>
        unfold getInitialNotes
        by_cases hempty : s = "" <;> simp [hempty, hparse]
      | str t =>
        unfold getInitialNotes
        by_cases hempty : s = "" <;> simp [hempty, hparse]
      | obj fields =>
        unfold getInitialNotes
        by_cases hempty : s = "" <;> simp [hempty, hparse]
  · intro s xs hwin hempty hparse
    subst hwin
    unfold getInitialNotes
    simp [hempty, hparse]

/-- Witness for C8 at concrete inputs: a parse function that fails on
`"bad"`, returns a number on `"num"` and an array on `"arr"` exercises
every branch of initialization. -/
theorem claim_C8_witness :
    getInitialNotes
        (fun s => if s = "bad" then none
         else if s = "arr" then some (Json.arr [Json.null])
         else some (Json.num 0)) true none = [] ∧
    getInitialNotes
        (fun s => if s = "bad" then none
         else if s = "arr" then some (Json.arr [Json.null])
         else some (Json.num 0)) true (some "") = [] ∧
    getInitialNotes
        (fun s => if s = "bad" then none
         else if s = "arr" then some (Json.arr [Json.null])
         else some (Json.num 0)) true (some "bad") = [] ∧
    getInitialNotes
        (fun s => if s = "bad" then none
         else if s = "arr" then some (Json.arr [Json.null])
         else some (Json.num 0)) true (some "num") = [] ∧
    getInitialNotes
        (fun s => if s = "bad" then none
         else if s = "arr" then some (Json.arr [Json.null])
         else some (Json.num 0)) true (some "arr") = [Json.null] := by
  refine ⟨?_, ?_, ?_, ?_, ?_⟩
  · exact (claim_C8 _ true).1
  · exact (claim_C8 _ true).2.1
  · exact (claim_C8 _ true).2.2.1 "bad" rfl
  · exact (claim_C8 _ true).2.2.2.1 "num" (Json.num 0) rfl
      (fun xs h => Json.noConfusion h)
  · exact (claim_C8 _ true).2.2.2.2 "arr" [Json.null] rfl (by decide) rfl

/-- One Note round-trips through its JSON object representation. -/
theorem fromJson_toJson (n : Note) : Note.fromJson (Note.toJson n) = some n :=
  rfl

/-- Claim C9: serializing any list of Notes to JSON and deserializing
the result yields a list field-for-field identical to the original. -/
theorem claim_C9 (ns : List Note) : notesFromJson (notesToJson ns) = some ns := by
  induction ns with
  | nil => rfl
  | cons n rest ih =>
    have ih' : decodeNotes (rest.map Note.toJson) = some rest := ih
    show decodeNotes (Note.toJson n :: rest.map Note.toJson) = some (n :: rest)
    simp [decodeNotes, fromJson_toJson, ih']

/-- Claim C10: deleting any id other than the currently selected one —
including ids absent from the store — leaves the selection pointer
unchanged. -/
theorem claim_C10 (s : AppState) (id : String) (h : s.activeId ≠ some id) :
    (deleteNote id s).activeId = s.activeId := by
  simp [deleteNote, h]

/-- Witness for C10 at a concrete input: deleting an absent id `"b"`
keeps the selection on `"a"`. -/
theorem claim_C10_witness :
    (deleteNote "b" ⟨[⟨"a", "", "", "0", "1", false, "c"⟩],
                     some "a"⟩).activeId = some "a" :=
  claim_C10 ⟨[⟨"a", "", "", "0", "1", false, "c"⟩], some "a"⟩ "b" (by decide)

end SkyNotes
